import Mathlib

/-!
Verification of the SilverBullet plugin-runtime specification against its
source. Pure data and control flow of the editor (`src/unnamed/part_001`)
and the core plug manifest (`src/unnamed/part_000`) are embedded as
executable Lean definitions; parts of the runtime that live outside the
given sources (the plugos `EventHook`, `System`, syscall registry and
page-namespace hook) are modelled from the specification, as marked in
their doc comments.
-/

namespace SilverBullet

/-- Modelled from the spec: the outcome of invoking a single plugin function
inside its sandbox (`invoke(functionName, args, timeout) -> Result |
{TimedOut | Trapped | ThrownError}`); the sandbox implementation is not
under src/. -/
inductive InvokeResult (α : Type) where
  | ok (v : α)
  | timedOut
  | trapped
  | thrownError
  deriving DecidableEq, Repr

/-- Whether an invocation outcome is a success. -/
def InvokeResult.isOk {α : Type} : InvokeResult α → Bool
  | .ok _ => true
  | _ => false

/-- Modelled from the spec: `EventHook.dispatchEvent` — invokes every current
subscriber of the event in registration order; a subscriber whose invocation
fails contributes no result and is logged, but does not abort dispatch to the
remaining subscribers (the EventHook implementation is not under src/, only
its caller `Editor.dispatchAppEvent`). A subscriber is a registration id
paired with its invocation outcome; the value returned is the triple
(successful results in order, logged failing ids in order,
all invoked ids in order). -/
def dispatchEvent {α : Type} :
    List (Nat × InvokeResult α) → List α × List Nat × List Nat
  | [] => ([], [], [])
  | (id, r) :: rest =>
    let (res, logs, inv) := dispatchEvent rest
    match r with
    | .ok v => (v :: res, logs, id :: inv)
    | _ => (res, id :: logs, id :: inv)

/-- `Editor.dispatchAppEvent` (src/unnamed/part_001 lines 363-365) forwards
directly to the event hook's `dispatchEvent`. -/
def Editor.dispatchAppEvent {α : Type} (subs : List (Nat × InvokeResult α)) :
    List α × List Nat × List Nat :=
  dispatchEvent subs

/-- The successful results of a subscriber list, in registration order. -/
def okValues {α : Type} (subs : List (Nat × InvokeResult α)) : List α :=
  subs.filterMap (fun p => match p.2 with | .ok v => some v | _ => none)

/-- The ids of the failing subscribers, in registration order. -/
def failedIds {α : Type} (subs : List (Nat × InvokeResult α)) : List Nat :=
  subs.filterMap (fun p => match p.2 with | .ok _ => none | _ => some p.1)

/-- The number of failing subscribers. -/
def failureCount {α : Type} (subs : List (Nat × InvokeResult α)) : Nat :=
  (subs.filter (fun p => !p.2.isOk)).length

theorem dispatchEvent_eq {α : Type} (subs : List (Nat × InvokeResult α)) :
    dispatchEvent subs = (okValues subs, failedIds subs, subs.map Prod.fst) := by
  induction subs with
  | nil => rfl
  | cons p rest ih =>
    obtain ⟨id, r⟩ := p
    cases r <;> simp [dispatchEvent, okValues, failedIds, List.filterMap_cons, ih]

theorem okValues_length_add_failureCount {α : Type}
    (subs : List (Nat × InvokeResult α)) :
    (okValues subs).length + failureCount subs = subs.length := by
  induction subs with
  | nil => rfl
  | cons p rest ih =>
    obtain ⟨id, r⟩ := p
    cases r <;>
      simp [okValues, failureCount, List.filterMap_cons, List.filter_cons,
        InvokeResult.isOk] at * <;>
      omega

theorem failedIds_length {α : Type} (subs : List (Nat × InvokeResult α)) :
    (failedIds subs).length = failureCount subs := by
  induction subs with
  | nil => rfl
  | cons p rest ih =>
    obtain ⟨id, r⟩ := p
    cases r <;>
      simp [failedIds, failureCount, List.filterMap_cons, List.filter_cons,
        InvokeResult.isOk] at * <;> omega

/-- Claim C1: for an event with k live subscribers of which exactly one
fails, `Editor.dispatchAppEvent` returns exactly k-1 successful results in
the subscribers' registration order (they are exactly the successful values
of the subscriber list, in that order), logs exactly the one failure, and
still invokes every subscriber. -/
theorem dispatchAppEvent_one_failure {α : Type}
    (subs : List (Nat × InvokeResult α)) (h : failureCount subs = 1) :
    (Editor.dispatchAppEvent subs).1 = okValues subs ∧
    (Editor.dispatchAppEvent subs).1.length = subs.length - 1 ∧
    (Editor.dispatchAppEvent subs).2.1 = failedIds subs ∧
    (Editor.dispatchAppEvent subs).2.1.length = 1 ∧
    (Editor.dispatchAppEvent subs).2.2 = subs.map Prod.fst := by
  have hlen := okValues_length_add_failureCount subs
  have hfail := failedIds_length subs
  rw [Editor.dispatchAppEvent, dispatchEvent_eq]
  exact ⟨rfl, by simp only []; omega, rfl, by simp only []; omega, rfl⟩

theorem dispatchAppEvent_one_failure_witness :
    (Editor.dispatchAppEvent
        [(0, InvokeResult.ok 10), (1, (InvokeResult.thrownError : InvokeResult Nat)),
          (2, InvokeResult.ok 20)]).1 =
      okValues
        [(0, InvokeResult.ok 10), (1, InvokeResult.thrownError),
          (2, InvokeResult.ok 20)] ∧
    (Editor.dispatchAppEvent
        [(0, InvokeResult.ok 10), (1, (InvokeResult.thrownError : InvokeResult Nat)),
          (2, InvokeResult.ok 20)]).1.length = 3 - 1 ∧
    (Editor.dispatchAppEvent
        [(0, InvokeResult.ok 10), (1, (InvokeResult.thrownError : InvokeResult Nat)),
          (2, InvokeResult.ok 20)]).2.1 =
      failedIds
        [(0, InvokeResult.ok 10), (1, InvokeResult.thrownError),
          (2, InvokeResult.ok 20)] ∧
    (Editor.dispatchAppEvent
        [(0, InvokeResult.ok 10), (1, (InvokeResult.thrownError : InvokeResult Nat)),
          (2, InvokeResult.ok 20)]).2.1.length = 1 ∧
    (Editor.dispatchAppEvent
        [(0, InvokeResult.ok 10), (1, (InvokeResult.thrownError : InvokeResult Nat)),
          (2, InvokeResult.ok 20)]).2.2 =
      List.map Prod.fst
        [(0, InvokeResult.ok 10), (1, (InvokeResult.thrownError : InvokeResult Nat)),
          (2, InvokeResult.ok 20)] :=
  dispatchAppEvent_one_failure _ (by decide)

/-- Execution environment tag, per the manifest schema's `env` field
(`client` or `server`; absence means either). -/
inductive Env where
  | client
  | server
  deriving DecidableEq, Repr

/-- Modelled from the spec: a `SyscallBinding` — host implementation plus
required environment (`none` = callable from either environment); the
syscall registry implementation is not under src/. -/
structure SyscallDef (α β : Type) where
  requiredEnv : Option Env
  impl : α → β

/-- Modelled from the spec: outcome of
`dispatch(callerEnv, name, args) -> Result | {NotFound | EnvironmentMismatch | Failure}`. -/
inductive SyscallResult (β : Type) where
  | ok (v : β)
  | notFound
  | environmentMismatch
  | failure
  deriving DecidableEq, Repr

/-- Lookup in an association list keyed by strings (first binding wins). -/
def assocLookup {α : Type} : List (String × α) → String → Option α
  | [], _ => none
  | (n, c) :: rest, name => if n = name then some c else assocLookup rest name

/-- Modelled from the spec: `SyscallRegistry.dispatch(callerEnv, name, args)`
— resolves the name, checks the caller's environment against the binding's
required environment, and only then runs the host implementation (not under
src/). The second component records whether the host implementation was
executed. -/
def syscallDispatch {α β : Type} (reg : List (String × SyscallDef α β))
    (callerEnv : Env) (name : String) (arg : α) : SyscallResult β × Bool :=
  match assocLookup reg name with
  | none => (.notFound, false)
  | some d =>
    match d.requiredEnv with
    | none => (.ok (d.impl arg), true)
    | some e =>
      if e = callerEnv then (.ok (d.impl arg), true)
      else (.environmentMismatch, false)

/-- Claim C2: a syscall whose binding requires an environment different from
the invoking sandbox's environment (in particular a `server` syscall invoked
from a `client` sandbox, and symmetrically) fails with
`EnvironmentMismatch`, and its host implementation is never executed. -/
theorem syscallDispatch_env_mismatch {α β : Type}
    (reg : List (String × SyscallDef α β)) (callerEnv e : Env)
    (name : String) (arg : α) (d : SyscallDef α β)
    (hlook : assocLookup reg name = some d)
    (henv : d.requiredEnv = some e) (hne : e ≠ callerEnv) :
    syscallDispatch reg callerEnv name arg = (.environmentMismatch, false) := by
  simp [syscallDispatch, hlook, henv, hne]

theorem syscallDispatch_env_mismatch_witness :
    syscallDispatch [("shell.run", SyscallDef.mk (some Env.server) (fun n : Nat => n + 1))]
      Env.client "shell.run" 0 = (.environmentMismatch, false) :=
  syscallDispatch_env_mismatch _ Env.client Env.server "shell.run" 0
    (SyscallDef.mk (some Env.server) (fun n : Nat => n + 1)) rfl rfl (by decide)

/-- A command declaration from the manifest schema (src/unnamed/part_000:
`command: {name, key?, mac?, priority?, contexts?}`). -/
structure CommandDef where
  name : String
  key : Option String
  mac : Option String
  priority : Option Nat
  contexts : Option (List String)
  deriving DecidableEq, Repr

/-- A slash-command declaration from the manifest schema
(`slashCommand: {name, description, value?}`). -/
structure SlashCommandDef where
  name : String
  description : String
  value : Option String
  deriving DecidableEq, Repr

/-- A page-namespace operation name (src/unnamed/part_000 declares
`readFile` and `getFileMeta`). -/
inductive PageOp where
  | readFile
  | getFileMeta
  deriving DecidableEq, Repr

/-- A page-namespace declaration from the manifest schema
(`pageNamespace: {pattern, operation}`); the pattern regex is kept as its
character sequence. -/
structure PageNamespaceDef where
  pattern : List Char
  operation : PageOp
  deriving DecidableEq, Repr

/-- A function declaration of a plug manifest (src/unnamed/part_000): an
optional environment tag and the declared triggers; the code reference
(`path` / `redirect`) is opaque to the runtime model. -/
structure FunctionDef where
  fnName : String
  env : Option Env
  events : List String
  command : Option CommandDef
  slashCommand : Option SlashCommandDef
  pageNamespace : Option PageNamespaceDef
  deriving DecidableEq, Repr

/-- A plug manifest: a unique name and its function declarations in
declaration order (src/unnamed/part_000). -/
structure Manifest where
  mname : String
  functions : List FunctionDef
  deriving DecidableEq, Repr

/-- A reference to a function of a loaded plug (owning plug name, function
name), as stored in the hooks' registration tables. -/
structure FunctionRef where
  plug : String
  fn : String
  deriving DecidableEq, Repr

/-- Modelled from the spec: the orchestrator state — the loaded plugs and
the registration tables of the hooks and the plugin-owned syscall registry
entries (the `System` implementation is not under src/). `plugSyscalls`
holds syscall bindings owned by loaded plugs; the manifest schema under
src/ declares none, so loading contributes none, and `unloadAll` clears any
present. -/
structure SystemState where
  loadedPlugs : List String
  subscriptions : List (String × FunctionRef)
  commands : List (String × FunctionRef)
  slashCommands : List (String × FunctionRef)
  plugSyscalls : List (String × FunctionRef)
  deriving DecidableEq, Repr

/-- The empty orchestrator state (nothing loaded, all tables empty). -/
def SystemState.empty : SystemState := ⟨[], [], [], [], []⟩

/-- The event subscriptions a single manifest declares, in declaration
order. -/
def manifestSubs (m : Manifest) : List (String × FunctionRef) :=
  m.functions.flatMap fun f => f.events.map fun e => (e, ⟨m.mname, f.fnName⟩)

/-- The command entries a single manifest declares, in declaration order. -/
def manifestCmds (m : Manifest) : List (String × FunctionRef) :=
  m.functions.filterMap fun f => f.command.map fun c => (c.name, ⟨m.mname, f.fnName⟩)

/-- The slash-command entries a single manifest declares, in declaration
order. -/
def manifestSlashCmds (m : Manifest) : List (String × FunctionRef) :=
  m.functions.filterMap fun f =>
    f.slashCommand.map fun sc => (sc.name, ⟨m.mname, f.fnName⟩)

/-- Modelled from the spec: `System.load` for one manifest — registers the
plug and appends its declared triggers to the hooks' tables (the `System`
implementation is not under src/). -/
def registerManifest (st : SystemState) (m : Manifest) : SystemState :=
  { st with
    loadedPlugs := st.loadedPlugs ++ [m.mname]
    subscriptions := st.subscriptions ++ manifestSubs m
    commands := st.commands ++ manifestCmds m
    slashCommands := st.slashCommands ++ manifestSlashCmds m }

/-- Modelled from the spec: `System.loadAll` — loads each manifest in turn
(the `System` implementation is not under src/). -/
def loadAll (st : SystemState) (ms : List Manifest) : SystemState :=
  ms.foldl registerManifest st

/-- Modelled from the spec: `System.unloadAll` — unsubscribes every plug
from every hook, terminates every sandbox and clears the plugin-owned
syscall registry entries (the `System` implementation is not under src/). -/
def unloadAll (_ : SystemState) : SystemState := SystemState.empty

/-- `Editor.reloadPlugs` (src/unnamed/part_001 lines 538-549): unloads all
plugs from the system, then loads every plug listed in the space (the list
order models the completion order of the concurrent loads). -/
def Editor.reloadPlugs (st : SystemState) (plugs : List Manifest) : SystemState :=
  loadAll (unloadAll st) plugs

theorem loadAll_closed_form (st : SystemState) (ms : List Manifest) :
    loadAll st ms =
      { loadedPlugs := st.loadedPlugs ++ ms.map Manifest.mname
        subscriptions := st.subscriptions ++ ms.flatMap manifestSubs
        commands := st.commands ++ ms.flatMap manifestCmds
        slashCommands := st.slashCommands ++ ms.flatMap manifestSlashCmds
        plugSyscalls := st.plugSyscalls } := by
  induction ms generalizing st with
  | nil => simp [loadAll]
  | cons m rest ih =>
    simp [loadAll, List.foldl_cons] at *
    rw [ih]
    simp [registerManifest]

/-- Claim C3: `Editor.reloadPlugs` equals `unloadAll` followed by a fresh
`loadAll`: the reloaded state is exactly the state obtained by loading the
given manifests into the empty system, so nothing from the previous load
generation survives; moreover every event subscription, command entry and
slash-command entry of the reloaded state references a function declared by
one of the freshly loaded manifests, and no plugin-owned syscall binding
remains beyond those the new manifests declare (none). -/
theorem reloadPlugs_no_stale_state (st : SystemState) (ms : List Manifest) :
    Editor.reloadPlugs st ms = loadAll SystemState.empty ms ∧
    (∀ p ∈ (Editor.reloadPlugs st ms).subscriptions,
      ∃ m ∈ ms, m.mname = p.2.plug ∧
        ∃ f ∈ m.functions, f.fnName = p.2.fn ∧ p.1 ∈ f.events) ∧
    (∀ p ∈ (Editor.reloadPlugs st ms).commands,
      ∃ m ∈ ms, m.mname = p.2.plug ∧
        ∃ f ∈ m.functions, f.fnName = p.2.fn ∧
          ∃ c, f.command = some c ∧ c.name = p.1) ∧
    (Editor.reloadPlugs st ms).plugSyscalls = [] := by
  refine ⟨rfl, ?_, ?_, ?_⟩
  · intro p hp
    rw [Editor.reloadPlugs, unloadAll, loadAll_closed_form] at hp
    simp only [SystemState.empty, List.nil_append, List.mem_flatMap, manifestSubs,
      List.mem_map] at hp
    obtain ⟨m, hm, f, hf, e, he, hpe⟩ := hp
    subst hpe
    exact ⟨m, hm, rfl, f, hf, rfl, he⟩
  · intro p hp
    rw [Editor.reloadPlugs, unloadAll, loadAll_closed_form] at hp
    simp only [SystemState.empty, List.nil_append, List.mem_flatMap, manifestCmds,
      List.mem_filterMap, Option.map_eq_some'] at hp
    obtain ⟨m, hm, f, hf, c, hc, hpe⟩ := hp
    subst hpe
    exact ⟨m, hm, rfl, f, hf, rfl, c, hc, rfl⟩
  · rw [Editor.reloadPlugs, unloadAll, loadAll_closed_form]
    rfl

theorem reloadPlugs_no_stale_state_witness :
    Editor.reloadPlugs
        ⟨["old"], [("page:saved", ⟨"old", "f"⟩)], [("Old: Cmd", ⟨"old", "f"⟩)],
          [], [("old.syscall", ⟨"old", "f"⟩)]⟩
        [⟨"core", [⟨"clearPageIndex", some Env.server, ["page:saved", "page:deleted"],
          none, none, none⟩]⟩] =
      loadAll SystemState.empty
        [⟨"core", [⟨"clearPageIndex", some Env.server, ["page:saved", "page:deleted"],
          none, none, none⟩]⟩] :=
  (reloadPlugs_no_stale_state _ _).1

/-- The loop of `Editor.completer` (src/unnamed/part_001 lines 582-593):
walks the dispatched `page:complete` results keeping the single truthy one
in `acc`; on seeing a second truthy result it prints the
"completion results from multiple sources" error and returns null. The
returned flag records whether that error was printed. -/
def completerLoop {α : Type} : List (Option α) → Option α → Option α × Bool
  | [], acc => (acc, false)
  | r :: rest, acc =>
    match r with
    | none => completerLoop rest acc
    | some v =>
      match acc with
      | some _ => (none, true)
      | none => completerLoop rest (some v)

/-- `Editor.completer` (src/unnamed/part_001 lines 580-595): dispatches
`page:complete` and folds the subscriber results (here given as the list of
per-subscriber results, `none` = empty result) into at most one completion
result; the flag records whether the multiple-sources error was printed. -/
def Editor.completer {α : Type} (results : List (Option α)) : Option α × Bool :=
  completerLoop results none

/-- The number of non-empty results in a result list. -/
def countSome {α : Type} (rs : List (Option α)) : Nat :=
  (rs.filterMap id).length

theorem completerLoop_some {α : Type} (rs : List (Option α)) (a : α) :
    completerLoop rs (some a) =
      match rs.filterMap id with
      | [] => (some a, false)
      | _ :: _ => ((none : Option α), true) := by
  induction rs with
  | nil => rfl
  | cons r rest ih =>
    cases r with
    | none => simpa [completerLoop, List.filterMap_cons] using ih
    | some v => simp [completerLoop, List.filterMap_cons]

theorem completer_eq {α : Type} (rs : List (Option α)) :
    Editor.completer rs =
      match rs.filterMap id with
      | [] => ((none : Option α), false)
      | [v] => (some v, false)
      | _ :: _ :: _ => ((none : Option α), true) := by
  rw [Editor.completer]
  induction rs with
  | nil => rfl
  | cons r rest ih =>
    cases r with
    | none => simpa [completerLoop, List.filterMap_cons] using ih
    | some v =>
      simp only [completerLoop, List.filterMap_cons, id]
      rw [completerLoop_some]
      cases hf : rest.filterMap id with
      | nil => simp [hf]
      | cons w ws => simp [hf]

/-- Claim C4: `Editor.completer` returns the unique non-empty subscriber
result when exactly one subscriber produced one (and prints no warning),
and when two or more subscribers produced non-empty results it prints the
multiple-sources warning and returns no completion at all. -/
theorem completer_single_answer {α : Type} (rs : List (Option α)) :
    (∀ v, rs.filterMap id = [v] → Editor.completer rs = (some v, false)) ∧
    (2 ≤ countSome rs → Editor.completer rs = ((none : Option α), true)) := by
  constructor
  · intro v hv
    rw [completer_eq, hv]
  · intro h2
    rw [completer_eq]
    rcases hf : rs.filterMap id with _ | ⟨w, _ | ⟨w', ws⟩⟩ <;>
      simp [countSome, hf] at h2 ⊢

theorem completer_single_answer_witness :
    Editor.completer [none, some 3, none] = (some 3, false) ∧
    Editor.completer [some 1, none, some 2] = ((none : Option Nat), true) :=
  ⟨(completer_single_answer [none, some 3, none]).1 3 (by decide),
   (completer_single_answer [some 1, none, some 2]).2 (by decide)⟩

/-- The debounce delay of `Editor.save` (src/unnamed/part_001 line 90:
`const saveInterval = 1000`). -/
def saveInterval : Nat := 1000

/-- An armed save timer: the time `setTimeout` was called and the delay it
was armed with. -/
structure SaveTimer where
  armedAt : Nat
  delay : Nat
  deriving DecidableEq, Repr

/-- The timer of a save trigger `(now, immediate)`: armed at the trigger
time, with delay 0 when the force-immediate flag is set, the full
`saveInterval` otherwise (src/unnamed/part_001 line 314:
`immediate ? 0 : saveInterval`). -/
def saveTimerOf (call : Nat × Bool) : SaveTimer :=
  ⟨call.1, if call.2 then 0 else saveInterval⟩

/-- The timer-arming step of `Editor.save` (src/unnamed/part_001 lines
281-315): clears any armed save timer (`clearTimeout`) and arms a fresh one
for the full delay. Returns the newly armed timer and the number of timers
cancelled by this call (1 when one was armed, else 0). -/
def saveArm (cur : Option SaveTimer) (now : Nat) (immediate : Bool) :
    Option SaveTimer × Nat :=
  match cur with
  | some _ => (some (saveTimerOf (now, immediate)), 1)
  | none => (some (saveTimerOf (now, immediate)), 0)

/-- A burst of save triggers: runs `saveArm` for each `(time, immediate)`
call in order, accumulating the number of cancelled timers. -/
def saveBurst (cur : Option SaveTimer) (cancelled : Nat) :
    List (Nat × Bool) → Option SaveTimer × Nat
  | [] => (cur, cancelled)
  | (t, imm) :: rest =>
    let (st, c) := saveArm cur t imm
    saveBurst st (cancelled + c) rest

theorem saveBurst_some (calls : List (Nat × Bool)) :
    ∀ tmr cancelled, calls ≠ [] →
      ∀ lastCall, calls.getLast? = some lastCall →
        saveBurst (some tmr) cancelled calls =
          (some (saveTimerOf lastCall), cancelled + calls.length) := by
  induction calls with
  | nil => intro _ _ h; exact absurd rfl h
  | cons c rest ih =>
    intro tmr cancelled _ lastCall hlast
    obtain ⟨t, imm⟩ := c
    cases rest with
    | nil =>
      simp only [List.getLast?_singleton, Option.some.injEq] at hlast
      subst hlast
      simp [saveBurst, saveArm]
    | cons c2 rest2 =>
      rw [List.getLast?_cons_cons] at hlast
      have := ih (saveTimerOf (t, imm)) (cancelled + 1) (by simp) lastCall hlast
      simp only [saveBurst, saveArm] at *
      rw [this]
      simp only [Prod.mk.injEq, true_and]
      simp only [List.length_cons]
      omega

/-- Claim C5: a burst of n ≥ 1 save triggers starting with no armed timer
collapses to a single armed timer: every call cancels the previously armed
timer (n-1 cancellations in total), and the one timer left is the last
trigger's, armed for the full debounce delay — 0 when its force-immediate
flag is set, `saveInterval` (1000 ms) otherwise — so only the last trigger
of the burst goes on to perform the write. -/
theorem saveBurst_collapses (calls : List (Nat × Bool)) (lastCall : Nat × Bool)
    (hlast : calls.getLast? = some lastCall) :
    saveBurst none 0 calls =
      (some ⟨lastCall.1, if lastCall.2 then 0 else saveInterval⟩,
        calls.length - 1) := by
  have hne : calls ≠ [] := by
    intro h; subst h; simp at hlast
  cases calls with
  | nil => exact absurd rfl hne
  | cons c rest =>
    obtain ⟨t, imm⟩ := c
    cases rest with
    | nil =>
      simp only [List.getLast?_singleton, Option.some.injEq] at hlast
      subst hlast
      simp [saveBurst, saveArm, saveTimerOf]
    | cons c2 rest2 =>
      rw [List.getLast?_cons_cons] at hlast
      have := saveBurst_some (c2 :: rest2) (saveTimerOf (t, imm)) 0
        (by simp) lastCall hlast
      simp only [saveBurst, saveArm] at *
      rw [this]
      have : saveTimerOf lastCall =
          ⟨lastCall.1, if lastCall.2 then 0 else saveInterval⟩ := rfl
      rw [this]
      simp only [Prod.mk.injEq, true_and]
      simp only [List.length_cons]
      omega

theorem saveBurst_collapses_witness :
    saveBurst none 0 [(5, false), (300, false), (700, false)] =
      (some ⟨700, if false then 0 else saveInterval⟩, 3 - 1) :=
  saveBurst_collapses _ (700, false) (by decide)

/-- The slice of the view state `Editor.save` consults (src/unnamed/part_001
lines 287): whether the document has unsaved changes and whether forced
read-only mode is active. -/
structure SaveViewState where
  unsavedChanges : Bool
  forcedROMode : Bool
  deriving DecidableEq, Repr

/-- The page store of the space, as a name-to-text mapping. -/
structure SpaceState where
  pages : List (String × String)
  deriving DecidableEq, Repr

/-- `space.writePage(name, text)`: stores `text` under `name`, replacing any
previous content. -/
def writePage (sp : SpaceState) (name text : String) : SpaceState :=
  ⟨(name, text) :: sp.pages.filter (fun p => p.1 != name)⟩

/-- The editor state consulted by the body of the armed save timer. -/
structure EditorSaveState where
  currentPage : Option String
  viewState : SaveViewState
  editorText : String
  space : SpaceState
  deriving DecidableEq, Repr

/-- The body of `Editor.save`'s armed timer (src/unnamed/part_001 lines
284-316), assuming the space write succeeds when issued: with no current
page it resolves; with a current page it resolves without writing when
there are no unsaved changes or forced read-only mode is active, and
otherwise writes the editor document to the space. Returns the resulting
space content and whether a write was issued. -/
def saveFire (st : EditorSaveState) : SpaceState × Bool :=
  match st.currentPage with
  | none => (st.space, false)
  | some p =>
    if !st.viewState.unsavedChanges || st.viewState.forcedROMode then
      (st.space, false)
    else
      (writePage st.space p st.editorText, true)

/-- Claim C9: when the debounced save timer fires while the view state has
no unsaved changes or forced read-only mode is active, `save()` resolves
without calling `writePage`: no write is issued and the stored page content
is unchanged. -/
theorem saveFire_no_write (st : EditorSaveState)
    (h : st.viewState.unsavedChanges = false ∨ st.viewState.forcedROMode = true) :
    saveFire st = (st.space, false) := by
  cases hc : st.currentPage with
  | none => simp [saveFire, hc]
  | some p =>
    rcases h with h | h <;> simp [saveFire, hc, h]

theorem saveFire_no_write_witness :
    saveFire ⟨some "page.md", ⟨false, false⟩, "edited text",
        ⟨[("page.md", "stored text")]⟩⟩ =
      (⟨[("page.md", "stored text")]⟩, false) :=
  saveFire_no_write _ (Or.inl rfl)

/-- The result of `Editor.runCommandByName` (src/unnamed/part_001 lines
876-883): either the command's result or the thrown not-found error. -/
inductive CommandRunResult (α : Type) where
  | ok (v : α)
  | notFound (message : String)
  deriving DecidableEq, Repr

/-- `Editor.runCommandByName` (src/unnamed/part_001 lines 876-883): looks
the name up in the view state's command table and runs the command when
present, otherwise throws `Command <name> not found`. A command is modelled
by the value its `run` returns. -/
def runCommandByName {α : Type} (commands : List (String × α)) (name : String) :
    CommandRunResult α :=
  match assocLookup commands name with
  | some cmd => .ok cmd
  | none => .notFound ("Command " ++ name ++ " not found")

/-- Claim C7: running a command by name yields the command's result when an
entry with that name exists in the current command table, and fails with
the not-found error — running nothing — for every name not present. -/
theorem runCommandByName_found_or_notFound {α : Type}
    (commands : List (String × α)) (name : String) :
    (∀ cmd, assocLookup commands name = some cmd →
      runCommandByName commands name = .ok cmd) ∧
    (assocLookup commands name = none →
      runCommandByName commands name =
        .notFound ("Command " ++ name ++ " not found")) := by
  constructor
  · intro cmd hc
    simp [runCommandByName, hc]
  · intro hc
    simp [runCommandByName, hc]

theorem runCommandByName_witness :
    runCommandByName [("Page: Rename", 1), ("Page: Delete", 2)] "Page: Delete" =
        CommandRunResult.ok 2 ∧
    runCommandByName [("Page: Rename", 1), ("Page: Delete", 2)] "No Such Command" =
        CommandRunResult.notFound ("Command " ++ "No Such Command" ++ " not found") :=
  ⟨(runCommandByName_found_or_notFound _ _).1 2 (by decide),
   (runCommandByName_found_or_notFound _ _).2 (by decide)⟩

/-- The `run` callback `Editor.createEditorState` builds for a command
keybinding (src/unnamed/part_001 lines 374-395): when the command declares
`contexts`, the current syntax context is looked up, and if it is absent or
not in the declared list the callback returns false without running the
command body; otherwise the body runs and the callback returns true. The
returned Bool is therefore both "key consumed" and "command body run". -/
def commandKeyRun (contexts : Option (List String))
    (currentContext : Option String) : Bool :=
  match contexts with
  | none => true
  | some ctxs =>
    match currentContext with
    | none => false
    | some c => ctxs.contains c

/-- Claim C8: for a command declaring a context filter, its keybinding runs
the command exactly when the current editor syntax context exists and is a
member of the declared list (so with the context absent or not listed the
handler returns false and the body never runs); a command without a
contexts declaration runs unconditionally on its keybinding. -/
theorem commandKeyRun_context_filter (contexts : List String)
    (currentContext : Option String) :
    (commandKeyRun (some contexts) currentContext = true ↔
      ∃ c, currentContext = some c ∧ c ∈ contexts) ∧
    (∀ cur : Option String, commandKeyRun none cur = true) := by
  constructor
  · cases currentContext with
    | none => simp [commandKeyRun]
    | some c => simp [commandKeyRun]
  · intro cur
    rfl

theorem commandKeyRun_context_filter_witness :
    commandKeyRun (some ["NakedURL"]) (some "NakedURL") = true ∧
    commandKeyRun (some ["NakedURL"]) (some "CommandLink") = false ∧
    commandKeyRun (some ["NakedURL"]) none = false ∧
    commandKeyRun none none = true :=
  ⟨(commandKeyRun_context_filter ["NakedURL"] (some "NakedURL")).1.mpr
      ⟨"NakedURL", rfl, by decide⟩,
    by
      have h := (commandKeyRun_context_filter ["NakedURL"] (some "CommandLink")).1
      revert h
      decide,
    by
      have h := (commandKeyRun_context_filter ["NakedURL"] none).1
      revert h
      decide,
    (commandKeyRun_context_filter [] none).2 none⟩

/-- `PageState` (src/unnamed/part_001 lines 83-88): the scroll position and
selection saved per open page (the selection modelled by its anchor). -/
structure PageState where
  scrollTop : Nat
  selection : Nat
  deriving DecidableEq, Repr

/-- `PageMeta` as `Editor.loadPage` constructs it for a fresh page
(src/unnamed/part_001 line 664). -/
structure PageMeta where
  name : String
  lastModified : Nat
  perm : String
  deriving DecidableEq, Repr

/-- A document as returned by `space.readPage`: the page text and its
metadata. -/
structure Document where
  text : String
  meta : PageMeta
  deriving DecidableEq, Repr

/-- The slice of editor state `Editor.loadPage` reads and writes: the
current page, the per-page saved states (`openPages`), and the live editor
view's scroll position and selection. -/
structure EditorPagesState where
  currentPage : Option String
  openPages : List (String × PageState)
  editorScrollTop : Nat
  editorSelection : Nat
  deriving DecidableEq, Repr

/-- `Editor.saveState` (src/unnamed/part_001 lines 736-744): records the
live view's scroll position and selection under the given page name
(`openPages.set`, replacing any previous entry). -/
def saveState (st : EditorPagesState) (page : String) : EditorPagesState :=
  { st with
    openPages :=
      (page, ⟨st.editorScrollTop, st.editorSelection⟩) ::
        st.openPages.filter (fun p => p.1 != page) }

/-- `Editor.restoreState` (src/unnamed/part_001 lines 714-734): when a saved
state exists for the page it is restored into the view and true is
returned; otherwise the view is reset to the top with the cursor at 0 and
false is returned. -/
def restoreState (st : EditorPagesState) (pageName : String) :
    EditorPagesState × Bool :=
  match assocLookup st.openPages pageName with
  | some ps =>
    ({ st with editorScrollTop := ps.scrollTop, editorSelection := ps.selection },
      true)
  | none =>
    ({ st with editorScrollTop := 0, editorSelection := 0 }, false)

/-- `Editor.loadPage` (src/unnamed/part_001 lines 627-688), restricted to
the page-state bookkeeping: persists the state of the page being closed
(when one is open), fetches the next page — `readResult` models
`space.readPage`, which either yields the document or throws — falling back
to a fresh empty page `{text: "", lastModified: 0, perm: "rw"}` on a read
failure, makes the new page current, and restores any saved state for it,
returning whether a state was restored. (The unwatch/watch, collab-session
and event-dispatch effects act on external collaborators and are outside
this state slice.) -/
def loadPage (st : EditorPagesState) (pageName : String)
    (readResult : Except Unit Document) :
    EditorPagesState × Document × Bool :=
  let st1 :=
    match st.currentPage with
    | some prev => saveState st prev
    | none => st
  let doc :=
    match readResult with
    | .ok d => d
    | .error _ => ⟨"", ⟨pageName, 0, "rw"⟩⟩
  let (st2, stateRestored) :=
    restoreState { st1 with currentPage := some pageName } pageName
  (st2, doc, stateRestored)

theorem assocLookup_filter_ne {α : Type} (l : List (String × α)) (k page : String)
    (hne : page ≠ k) :
    assocLookup (l.filter (fun p => p.1 != k)) page = assocLookup l page := by
  induction l with
  | nil => rfl
  | cons p rest ih =>
    obtain ⟨n, v⟩ := p
    by_cases hn : n = k
    · subst hn
      have h1 : ((n, v) :: rest).filter (fun p => p.1 != n) =
          rest.filter (fun p => p.1 != n) := by
        simp [List.filter_cons]
      rw [h1, ih]
      conv_rhs => rw [assocLookup]
      rw [if_neg (fun h => hne h.symm)]
    · have h1 : ((n, v) :: rest).filter (fun p => p.1 != k) =
          (n, v) :: rest.filter (fun p => p.1 != k) := by
        simp [List.filter_cons, hn]
      rw [h1, assocLookup]
      conv_rhs => rw [assocLookup]
      by_cases hp : n = page
      · simp [hp]
      · simp [hp, ih]

theorem restoreState_snd (st : EditorPagesState) (pageName : String) :
    (restoreState st pageName).2 = (assocLookup st.openPages pageName).isSome := by
  cases h : assocLookup st.openPages pageName <;> simp [restoreState, h]

theorem saveState_lookup (st : EditorPagesState) (page pageName : String) :
    assocLookup (saveState st page).openPages pageName =
      if page = pageName then some ⟨st.editorScrollTop, st.editorSelection⟩
      else assocLookup st.openPages pageName := by
  show assocLookup ((page, _) :: st.openPages.filter (fun p => p.1 != page))
      pageName = _
  rw [assocLookup]
  by_cases h : page = pageName
  · simp [h]
  · rw [if_neg h, if_neg h,
      assocLookup_filter_ne st.openPages page pageName (fun hh => h hh.symm)]

/-- Claim C10: `Editor.loadPage` never propagates a read failure — it is
total in the read outcome, and when the read throws it proceeds with a
fresh empty page `{text: "", lastModified: 0, perm: "rw"}` named after the
requested page; and it returns true exactly when a saved editor state for
that page existed at restore time, i.e. when the page already had a saved
state in `openPages` or is the page that was current (whose state loadPage
itself persists before restoring). -/
theorem loadPage_total_and_restore (st : EditorPagesState) (pageName : String)
    (readResult : Except Unit Document) :
    (readResult = .error () →
      (loadPage st pageName readResult).2.1 =
        ⟨"", ⟨pageName, 0, "rw"⟩⟩) ∧
    (∀ d, readResult = .ok d → (loadPage st pageName readResult).2.1 = d) ∧
    ((loadPage st pageName readResult).2.2 = true ↔
      (st.currentPage = some pageName ∨
        (assocLookup st.openPages pageName).isSome = true)) := by
  have hsnd : (loadPage st pageName readResult).2.2 =
      (assocLookup
        (match st.currentPage with
          | some prev => saveState st prev
          | none => st).openPages pageName).isSome := by
    cases hc2 : st.currentPage <;>
      simp [loadPage, restoreState_snd, hc2]
  refine ⟨?_, ?_, ?_⟩
  · intro h; subst h; rfl
  · intro d h; subst h; rfl
  · rw [hsnd]
    cases hc : st.currentPage with
    | none =>
      cases hl : assocLookup st.openPages pageName <;> simp [hl, hc]
    | some prev =>
      simp only [saveState_lookup]
      by_cases hp : prev = pageName
      · subst hp
        simp [hc]
      · rw [if_neg hp]
        cases hl : assocLookup st.openPages pageName <;>
          simp [hl, hc, hp]

theorem loadPage_total_and_restore_witness :
    (loadPage ⟨some "a.md", [], 7, 3⟩ "a.md" (Except.error ())).2.1 =
      ⟨"", ⟨"a.md", 0, "rw"⟩⟩ ∧
    (loadPage ⟨some "a.md", [], 7, 3⟩ "a.md" (Except.error ())).2.2 = true ∧
    (loadPage ⟨none, [], 7, 3⟩ "b.md" (Except.error ())).2.2 = false := by
  refine ⟨(loadPage_total_and_restore _ _ _).1 rfl, ?_, ?_⟩
  · exact (loadPage_total_and_restore ⟨some "a.md", [], 7, 3⟩ "a.md"
      (Except.error ())).2.2.mpr (Or.inl rfl)
  · have h := (loadPage_total_and_restore ⟨none, [], 7, 3⟩ "b.md"
      (Except.error ())).2.2
    revert h
    decide

/-- A compiled page-namespace pattern atom: a literal character or the
wildcard `.`. -/
inductive RegexTok where
  | lit (c : Char)
  | anyChar
  deriving DecidableEq, Repr

/-- Whether an atom matches one character. -/
def tokMatches : RegexTok → Char → Bool
  | .lit c, d => c = d
  | .anyChar, _ => true

/-- Modelled from the spec: compiling a page-namespace `pattern`
regex-string (the namespace hook implementation is not under src/). The
patterns the core manifest declares (src/unnamed/part_000) use only literal
characters, `.` and a postfix `+`, so exactly those are interpreted: each
atom is paired with a flag telling whether it carries a `+`. -/
def compilePattern : List Char → List (RegexTok × Bool)
  | [] => []
  | c :: '+' :: rest =>
    ((if c = '.' then RegexTok.anyChar else RegexTok.lit c), true) ::
      compilePattern rest
  | c :: rest =>
    ((if c = '.' then RegexTok.anyChar else RegexTok.lit c), false) ::
      compilePattern rest

/-- Whether a compiled pattern, anchored at both ends, accepts a name; a
`+`-flagged atom must match one or more characters. -/
def regexAccepts (ts : List (RegexTok × Bool)) (cs : List Char) : Bool :=
  match ts, cs with
  | [], [] => true
  | [], _ :: _ => false
  | _ :: _, [] => false
  | (t, false) :: ts2, c :: cs2 => tokMatches t c && regexAccepts ts2 cs2
  | (t, true) :: ts2, c :: cs2 =>
    tokMatches t c && (regexAccepts ts2 cs2 || regexAccepts ((t, true) :: ts2) cs2)

/-- One page-namespace handler registration: the declaring function, its
pattern and its operation. -/
structure NamespaceHandler where
  fnName : String
  pattern : List Char
  operation : PageOp
  deriving DecidableEq, Repr

/-- The `"🔍 .+"` pattern of the search page handlers
(src/unnamed/part_000 lines 160-169). -/
def searchPattern : List Char := ['🔍', ' ', '.', '+']

/-- The `"💭 .+"` pattern of the cloud page handlers
(src/unnamed/part_000 lines 352-361). -/
def cloudPattern : List Char := ['💭', ' ', '.', '+']

/-- The page-namespace declarations of the core plug manifest
(src/unnamed/part_000), in declaration order. -/
def corePageNamespaceHandlers : List NamespaceHandler :=
  [⟨"readPageSearch", searchPattern, .readFile⟩,
   ⟨"getPageMetaSearch", searchPattern, .getFileMeta⟩,
   ⟨"readPageCloud", cloudPattern, .readFile⟩,
   ⟨"getPageMetaCloud", cloudPattern, .getFileMeta⟩]

/-- Whether a handler is responsible for the requested operation on the
given page name. -/
def handlerMatches (h : NamespaceHandler) (op : PageOp) (name : List Char) : Bool :=
  decide (h.operation = op) && regexAccepts (compilePattern h.pattern) name

/-- Modelled from the spec: page-namespace routing — "the first matching,
loaded handler for the requested operation services the call"; the
namespace hook implementation is not under src/, only the declarations of
the core manifest. Returns the handler that services the request, or
`none` when the request falls through to regular page storage. -/
def routePageRequest (hs : List NamespaceHandler) (op : PageOp)
    (name : List Char) : Option NamespaceHandler :=
  hs.find? (fun h => handlerMatches h op name)

/-- The page name `"🔍 test"`, as characters. -/
def searchTestName : List Char := ['🔍', ' ', 't', 'e', 's', 't']

/-- The page name `"normal.md"`, as characters. -/
def normalMdName : List Char := ['n', 'o', 'r', 'm', 'a', 'l', '.', 'm', 'd']

/-- Claim C6: the `readFile` request for `"🔍 test"` is serviced by the
handler registered with pattern `"🔍 .+"` and operation `readFile`
(`readPageSearch`); a `readFile` request for `"normal.md"` is serviced by
no namespace handler; and in general the first loaded handler that matches
the requested operation and name services the call — any handler preceded
only by non-matching registrations is the one chosen. -/
theorem routePageRequest_first_match :
    routePageRequest corePageNamespaceHandlers .readFile searchTestName =
      some ⟨"readPageSearch", searchPattern, .readFile⟩ ∧
    routePageRequest corePageNamespaceHandlers .readFile normalMdName = none ∧
    (∀ (pre post : List NamespaceHandler) (h : NamespaceHandler)
        (op : PageOp) (name : List Char),
      handlerMatches h op name = true →
      (∀ h2 ∈ pre, handlerMatches h2 op name = false) →
      routePageRequest (pre ++ h :: post) op name = some h) := by
  refine ⟨by decide, by decide, ?_⟩
  intro pre post h op name hm hpre
  induction pre with
  | nil => simp [routePageRequest, List.find?_cons, hm]
  | cons p rest ih =>
    have hp := hpre p (by simp)
    simp only [List.cons_append, routePageRequest, List.find?_cons, hp]
    exact ih (fun h2 hh2 => hpre h2 (by simp [hh2]))

theorem routePageRequest_first_match_witness :
    routePageRequest
        [⟨"getPageMetaSearch", searchPattern, .getFileMeta⟩,
          ⟨"readPageCloud", cloudPattern, .readFile⟩]
        .readFile ['💭', ' ', 'x'] =
      some ⟨"readPageCloud", cloudPattern, .readFile⟩ :=
  routePageRequest_first_match.2.2
    [⟨"getPageMetaSearch", searchPattern, .getFileMeta⟩] []
    ⟨"readPageCloud", cloudPattern, .readFile⟩ .readFile ['💭', ' ', 'x']
    (by decide) (by decide)

end SilverBullet
